import Mathlib

/-!
Verification development for the blog-forge client application.

The definitions below are a shallow embedding, in Lean, of the data
operations implemented in the repository's pages:
`src/pages/PostDetail.tsx` (post loading, comment fetching/adding, like
toggling), `src/pages/CreatePost.tsx` (post creation, slug derivation,
tag editing) and the index page (published-post listing with search and
category filters).  The external table store is modelled as explicit
lists of rows; each query or mutation becomes a pure function on those
lists.  JavaScript string primitives used by the code (`trim`,
`toLowerCase`, template-literal number rendering) are embedded as
executable functions on `List Char`.
-/

namespace BlogForge

/-- Whitespace test of JavaScript's `String.prototype.trim` (the ECMA-262
WhiteSpace and LineTerminator code points): TAB, LF, VT, FF, CR, SPACE,
NBSP, OGHAM SPACE MARK, the U+2000..U+200A space separators, LS, PS,
NARROW NO-BREAK SPACE, MEDIUM MATHEMATICAL SPACE, IDEOGRAPHIC SPACE and
the byte-order mark U+FEFF. -/
def isWs (c : Char) : Bool :=
  c.val == 0x09 || c.val == 0x0A || c.val == 0x0B || c.val == 0x0C
    || c.val == 0x0D || c.val == 0x20 || c.val == 0xA0 || c.val == 0x1680
    || (0x2000 ≤ c.val && c.val ≤ 0x200A)
    || c.val == 0x2028 || c.val == 0x2029 || c.val == 0x202F
    || c.val == 0x205F || c.val == 0x3000 || c.val == 0xFEFF

/-- Remove leading and trailing whitespace from a character list. -/
def trimChars (l : List Char) : List Char :=
  ((l.dropWhile isWs).reverse.dropWhile isWs).reverse

/-- Embedding of JavaScript's `s.trim()`. -/
def jsTrim (s : String) : String :=
  ⟨trimChars s.data⟩

/-! ### Likes (`src/pages/PostDetail.tsx`, `likeMutation`)

A row of the `likes` table carries a post reference and a user
reference (the store-assigned `id` column plays no role in the
behaviour modelled here). -/

/-- A row of the `likes` table. -/
structure Like where
  post_id : String
  user_id : String
deriving DecidableEq, Repr

/-- The filter `.eq('post_id', id).eq('user_id', user.id)` used both by the
`isLiked` query and by the delete branch of `likeMutation`. -/
def likeMatches (p u : String) (l : Like) : Bool :=
  l.post_id == p && l.user_id == u

/-- Embedding of the `isLiked` query: whether a `likes` row exists for
`(post, user)` (the query selects by both equalities and reports whether a
row came back). -/
def isLiked (likes : List Like) (p u : String) : Bool :=
  likes.any (likeMatches p u)

/-- Embedding of the `likesCount` query: `count` of `likes` rows whose
`post_id` equals the post. -/
def likesCount (likes : List Like) (p : String) : Nat :=
  (likes.filter (fun l => l.post_id == p)).length

/-- Embedding of `likeMutation.mutationFn`: if the user currently likes the
post, delete the row(s) matching `(post_id, user_id)`; otherwise insert one
row `{post_id, user_id}`. -/
def toggleLike (likes : List Like) (p u : String) : List Like :=
  if isLiked likes p u then
    likes.filter (fun l => !(likeMatches p u l))
  else
    likes ++ [⟨p, u⟩]

/-! ### Comments (`src/pages/PostDetail.tsx`, `commentMutation` / `handleAddComment`) -/

/-- A row of the `comments` table as inserted by `commentMutation`
(`{post_id, user_id, content}`; `id` and `created_at` are store-assigned). -/
structure CommentRow where
  post_id : String
  user_id : String
  content : String
deriving DecidableEq, Repr

/-- The error outcomes of the add-comment path: the empty-body guard in
`handleAddComment` (the `ValidationError` of the specification) and the
missing-user guard in `commentMutation` (the `Unauthenticated` error). -/
inductive CommentError where
  | validationError
  | unauthenticated
deriving DecidableEq, Repr

/-- Embedding of `handleAddComment` followed by `commentMutation.mutationFn`:
if `newComment.trim()` is empty the handler returns without mutating
(modelled as the specification's `ValidationError`); otherwise the mutation
requires a signed-in user and inserts one row whose `content` is the trimmed
body. -/
def handleAddComment (user : Option String) (postId body : String)
    (comments : List CommentRow) : Except CommentError (List CommentRow) :=
  if jsTrim body = "" then
    .error .validationError
  else
    match user with
    | none => .error .unauthenticated
    | some uid => .ok (comments ++ [⟨postId, uid, jsTrim body⟩])

/-! ### Posts, categories and profiles -/

/-- A row of the `categories` table (the fields the pages select). -/
structure CategoryRow where
  id : String
  name : String
  slug : String
deriving DecidableEq, Repr

/-- The embedded `categories (name, slug)` object produced by the store-side
join in the post queries. -/
structure CategoryRef where
  name : String
  slug : String
deriving DecidableEq, Repr

/-- A row of the `profiles` table (the fields the pages select:
`user_id, display_name`). -/
structure Profile where
  user_id : String
  display_name : String
deriving DecidableEq, Repr

/-- A row of the `posts` table (the fields consumed by the pages). -/
structure Post where
  id : String
  title : String
  content : String
  excerpt : String
  featured_image_url : Option String
  category_id : Option String
  tags : List String
  status : String
  created_at : Nat
  published_at : Option Nat
  user_id : String
deriving DecidableEq, Repr

/-- A row of the `comments` table as returned by `select('*')`. -/
structure Comment where
  id : String
  post_id : String
  user_id : String
  content : String
  created_at : Nat
deriving DecidableEq, Repr

/-- The failure of the post query surfaced by `PostDetail` (`.single()` errors
when the filtered result is not exactly one row, and the page then renders
the not-found view). -/
inductive LoadError where
  | notFound
deriving DecidableEq, Repr

/-- Embedding of PostgREST's `.single()`: succeed exactly when the filtered
result set has exactly one row. -/
def single {α : Type} (rows : List α) : Except LoadError α :=
  match rows with
  | [a] => .ok a
  | _ => .error .notFound

/-- The composite view assembled by the `PostDetail` post query: the post row,
its joined category and the separately fetched author profile. -/
structure PostView where
  post : Post
  categories : Option CategoryRef
  profiles : Option Profile
deriving DecidableEq, Repr

/-- Embedding of the `PostDetail` post query (`queryKey: ['post', id]`):
select the `posts` row with the given `id` (`.single()`), join its category,
then fetch the author's profile separately.  A missing profile row only
produces a console warning in the code, so the lookup result is simply
attached as an `Option`. -/
def loadPost (posts : List Post) (cats : List CategoryRow) (profiles : List Profile)
    (pid : String) : Except LoadError PostView :=
  match single (posts.filter (fun p => p.id == pid)) with
  | .error e => .error e
  | .ok p =>
      .ok { post := p
            categories := p.category_id.bind fun cid =>
              (cats.find? (fun c => c.id == cid)).map fun c => ⟨c.name, c.slug⟩
            profiles := profiles.find? (fun pr => pr.user_id == p.user_id) }

/-- Rendering of an optional profile's display name:
`profiles?.display_name || 'Anonymous'` (JavaScript `||` also replaces an
empty display name). -/
def displayNameOr (p : Option Profile) : String :=
  match p with
  | none => "Anonymous"
  | some pr => if pr.display_name = "" then "Anonymous" else pr.display_name

/-- A comment merged with its author's profile lookup
(`{...comment, profiles: ...}`). -/
structure EnrichedComment where
  comment : Comment
  profiles : Option Profile
deriving DecidableEq, Repr

/-- The client-side merge in the `PostDetail` comments query: each comment is
extended with the first profile whose `user_id` matches
(`profilesData?.find(...) || null`; `profilesData` is absent when the profile
query failed). -/
def enrichComments (cs : List Comment) (profilesData : Option (List Profile)) :
    List EnrichedComment :=
  cs.map fun c => ⟨c, (profilesData.getD []).find? (fun pr => pr.user_id == c.user_id)⟩

/-- The distinct user-id collection `[...new Set(xs)]` (first occurrence
kept; the order is only used to build the `.in` filter). -/
def jsSetDistinct (l : List String) : List String :=
  l.foldl (fun acc x => if x ∈ acc then acc else acc ++ [x]) []

/-- The select feeding the `PostDetail` comments query: comments of the post
ordered by `created_at` descending (newest first). -/
def commentsQuery (commentsTable : List Comment) (pid : String) : List Comment :=
  List.insertionSort (fun a b => b.created_at ≤ a.created_at)
    (commentsTable.filter (fun c => c.post_id == pid))

/-- The `userIds` collection of the comments query:
`[...new Set(commentsData.map(c => c.user_id))]`. -/
def commentUserIds (commentsTable : List Comment) (pid : String) : List String :=
  jsSetDistinct ((commentsQuery commentsTable pid).map (·.user_id))

/-- Embedding of the `PostDetail` comments query (`queryKey: ['comments', id]`):
select the comments of the post ordered newest-first, collect the distinct
author ids (returning `[]` when there are none), fetch their profiles
(`profilesOk = false` models a failed profile query, which the code only
warns about), and merge.  Only a failure of the comments select itself
(`commentsOk = false`) throws. -/
def fetchComments (commentsTable : List Comment) (profilesTable : List Profile)
    (commentsOk profilesOk : Bool) (pid : String) :
    Except String (List EnrichedComment) :=
  if !commentsOk then
    .error "comments query failed"
  else if (commentUserIds commentsTable pid).length = 0 then
    .ok []
  else
    .ok (enrichComments (commentsQuery commentsTable pid)
      (if profilesOk then
        some (profilesTable.filter
          (fun pr => pr.user_id ∈ commentUserIds commentsTable pid))
       else none))

/-! ### Published-post listing (the index page's posts query) -/

/-- Substring test on character lists (`needle` occurs contiguously in
`hay`). -/
def isSubstr : List Char → List Char → Bool
  | needle, [] => needle.isEmpty
  | needle, hay@(_ :: t) => needle.isPrefixOf hay || isSubstr needle t

/-- The store's `ilike '%pat%'` filter on a column, modelled per the
gateway contract as a case-insensitive substring match. -/
def ilikeContains (hay pat : String) : Bool :=
  isSubstr (pat.data.map Char.toLower) (hay.data.map Char.toLower)

/-- Descending order on publish timestamps, as requested by
`.order('published_at', { ascending: false })` (the published posts the
query returns all carry a timestamp; an absent one is treated as 0). -/
def publishedAtGe (a b : Post) : Prop :=
  b.published_at.getD 0 ≤ a.published_at.getD 0

instance : DecidableRel publishedAtGe := fun _ _ =>
  inferInstanceAs (Decidable (_ ≤ _))

instance : IsTotal Post publishedAtGe :=
  ⟨fun a b => Nat.le_total (b.published_at.getD 0) (a.published_at.getD 0)⟩

instance : IsTrans Post publishedAtGe :=
  ⟨fun _ _ _ hab hbc => Nat.le_trans hbc hab⟩

/-- The conditional search restriction of the index page's posts query:
`if (searchQuery) query = query.or(title.ilike..., content.ilike...)`. -/
def applySearchFilter (q : String) (l : List Post) : List Post :=
  if q = "" then l
  else l.filter (fun p => ilikeContains p.title q || ilikeContains p.content q)

/-- The conditional category restriction of the index page's posts query:
`if (selectedCategory) query = query.eq('category_id', selectedCategory)`. -/
def applyCategoryFilter (c : String) (l : List Post) : List Post :=
  if c = "" then l
  else l.filter (fun p => p.category_id == some c)

/-- Embedding of the index page's posts query: `posts` where
`status = 'published'`, ordered by `published_at` descending; when
`searchQuery` is non-empty (truthy), restricted by
`.or(title.ilike.%q%, content.ilike.%q%)`; when `selectedCategory` is
non-empty, restricted by `.eq('category_id', selectedCategory)`. -/
def listPublishedPosts (posts : List Post) (searchQuery selectedCategory : String) :
    List Post :=
  List.insertionSort publishedAtGe
    (applyCategoryFilter selectedCategory
      (applySearchFilter searchQuery
        (posts.filter (fun p => p.status == "published"))))

/-- The combined row condition of the index page's posts query, as one
predicate. -/
def listFilterPred (q c : String) (p : Post) : Bool :=
  p.status == "published"
    && (q == "" || ilikeContains p.title q || ilikeContains p.content q)
    && (c == "" || p.category_id == some c)

/-- A post merged with its author's profile lookup on the index page
(`{...post, profiles: ...}`). -/
structure EnrichedPost where
  post : Post
  profiles : Option Profile
deriving DecidableEq, Repr

/-- The client-side merge in the index page's posts query: each post is
extended with the first profile whose `user_id` matches
(`profilesData?.find(...) || null`). -/
def enrichPosts (ps : List Post) (profilesData : Option (List Profile)) :
    List EnrichedPost :=
  ps.map fun p => ⟨p, (profilesData.getD []).find? (fun pr => pr.user_id == p.user_id)⟩

/-! ### Post creation (`src/pages/CreatePost.tsx`, `createPostMutation`) -/

/-- Lower-case alphanumeric test: the complement of the character class in
the regex `/[^a-z0-9]+/`. -/
def isAlnumLower (c : Char) : Bool :=
  ('a' ≤ c && c ≤ 'z') || ('0' ≤ c && c ≤ '9')

/-- Embedding of `replace(/[^a-z0-9]+/g, '-')`: every maximal run of
characters outside `[a-z0-9]` becomes a single hyphen.  The flag records
whether the previous character was inside such a run. -/
def collapseAux : Bool → List Char → List Char
  | _, [] => []
  | inRun, c :: rest =>
    if isAlnumLower c then c :: collapseAux false rest
    else if inRun then collapseAux true rest
    else '-' :: collapseAux true rest

/-- Embedding of `replace(/(^-|-$)/g, '')`: remove one leading and one
trailing hyphen (the anchors make each alternative match at most once). -/
def stripEdgeHyphens (l : List Char) : List Char :=
  let l1 := match l with
    | '-' :: t => t
    | other => other
  if l1.getLast? = some '-' then l1.dropLast else l1

/-- Embedding of JavaScript's `toLowerCase` (ASCII case mapping; any
character outside `[a-z0-9]` is collapsed to a hyphen by the next step
regardless of how it lower-cases). -/
def jsToLowerCase (s : String) : String :=
  ⟨s.data.map Char.toLower⟩

/-- Embedding of the slug pipeline in `createPostMutation`:
`title.toLowerCase().replace(/[^a-z0-9]+/g, '-').replace(/(^-|-$)/g, '')`. -/
def slugify (title : String) : String :=
  ⟨stripEdgeHyphens (collapseAux false (jsToLowerCase title).data)⟩

/-- Decimal digit characters of a natural number, most significant first:
the rendering of the integer `Date.now()` by template-literal
interpolation. -/
def natDigits (n : Nat) (acc : List Char) : List Char :=
  let d := Char.ofNat (48 + n % 10)
  if h : n < 10 then d :: acc
  else natDigits (n / 10) (d :: acc)
termination_by n
decreasing_by exact Nat.div_lt_self (by omega) (by omega)

/-- The decimal string of a natural number (`${Date.now()}`). -/
def natDecimal (n : Nat) : String :=
  ⟨natDigits n []⟩

/-- The lifecycle status selected by the Save Draft / Publish buttons. -/
inductive PostStatus where
  | draft
  | published
deriving DecidableEq, Repr

/-- The form state feeding `createPostMutation` (title, content, excerpt,
category, tags, featured image). -/
structure PostForm where
  title : String
  content : String
  excerpt : String
  categoryId : String
  tags : List String
  featuredImage : String
deriving DecidableEq, Repr

/-- The `postData` row inserted into `posts` by `createPostMutation`. -/
structure PostInsert where
  user_id : String
  title : String
  slug : String
  content : String
  excerpt : String
  category_id : Option String
  tags : List String
  featured_image_url : Option String
  status : PostStatus
  published_at : Option Nat
deriving DecidableEq, Repr

/-- Embedding of the `postData` object built by `createPostMutation.mutationFn`
(`now` is the value of `Date.now()` / `new Date()` at the call). -/
def buildPostData (userId : String) (form : PostForm) (status : PostStatus)
    (now : Nat) : PostInsert :=
  { user_id := userId
    title := form.title
    slug := slugify form.title ++ "-" ++ natDecimal now
    content := form.content
    excerpt := if form.excerpt = "" then ⟨form.content.data.take 150⟩ else form.excerpt
    category_id := if form.categoryId = "" then none else some form.categoryId
    tags := form.tags
    featured_image_url := if form.featuredImage = "" then none else some form.featuredImage
    status := status
    published_at := if status = .published then some now else none }

/-! ### Tag editing (`src/pages/CreatePost.tsx`, `addTag` / `removeTag`) -/

/-- Embedding of `addTag`: append `newTag.trim()` when it is non-empty
(truthy) and not already present. -/
def addTag (tags : List String) (newTag : String) : List String :=
  if jsTrim newTag ≠ "" ∧ ¬ tags.contains (jsTrim newTag) then
    tags ++ [jsTrim newTag]
  else tags

/-- Embedding of `removeTag`: keep the tags different from the removed one. -/
def removeTag (tags : List String) (tagToRemove : String) : List String :=
  tags.filter (fun tag => tag ≠ tagToRemove)

/-- One user interaction with the tag editor. -/
inductive TagOp where
  | add (s : String)
  | remove (s : String)
deriving DecidableEq, Repr

/-- Apply one tag-editor interaction to the `tags` state. -/
def applyTagOp (tags : List String) : TagOp → List String
  | .add s => addTag tags s
  | .remove s => removeTag tags s

/-- The `tags` state after a sequence of interactions, starting from the
initial `useState<string[]>([])`. -/
def runTagOps (ops : List TagOp) : List String :=
  ops.foldl applyTagOp []

/-- Whitespace-only (or empty) string test. -/
def wsOnly (s : String) : Bool :=
  s.data.all isWs

/-- The invariant maintained by the tag editor: no duplicates, no empty or
whitespace-only entries. -/
def tagInvariant (tags : List String) : Prop :=
  tags.Nodup ∧ ∀ t ∈ tags, wsOnly t = false



/-! ### Theorems -/

/-- C7: For every invocation of createPost, the inserted row's publish
timestamp equals the current time iff the requested status is published, and
is null iff the status is draft. -/
theorem createPost_published_at_iff (u : String) (form : PostForm)
    (st : PostStatus) (now : Nat) :
    ((buildPostData u form st now).published_at = some now ↔ st = .published)
    ∧ ((buildPostData u form st now).published_at = none ↔ st = .draft) := by
  cases st <;> simp [buildPostData]

/-- C9: The profile-enrichment merges (comments on the post page, posts on
the index page) preserve length and order, and each output element is the
input record extended with the `profiles` lookup, nothing else changed. -/
theorem enrich_preserves_shape (cs : List Comment) (pd : Option (List Profile))
    (ps : List Post) (ppd : Option (List Profile)) :
    (enrichComments cs pd).length = cs.length
    ∧ (enrichPosts ps ppd).length = ps.length
    ∧ (∀ i : Nat, (enrichComments cs pd)[i]? = (cs[i]?).map fun c =>
        ⟨c, (pd.getD []).find? (fun pr => pr.user_id == c.user_id)⟩)
    ∧ (∀ i : Nat, (enrichPosts ps ppd)[i]? = (ps[i]?).map fun p =>
        ⟨p, (ppd.getD []).find? (fun pr => pr.user_id == p.user_id)⟩) := by
  refine ⟨by simp [enrichComments], by simp [enrichPosts], ?_, ?_⟩ <;>
    intro i <;> simp [enrichComments, enrichPosts]

/-- C2: An empty or whitespace-only body is rejected (the specification's
`ValidationError`) with no insert; an authenticated user with a non-empty
trimmed body gets exactly one row inserted. -/
theorem addComment_validation (user : Option String) (postId body : String)
    (table : List CommentRow) :
    (jsTrim body = "" →
      handleAddComment user postId body table = .error .validationError)
    ∧ (∀ uid, user = some uid → jsTrim body ≠ "" →
        handleAddComment user postId body table
          = .ok (table ++ [⟨postId, uid, jsTrim body⟩])
        ∧ ∀ l, handleAddComment user postId body table = .ok l →
            l.length = table.length + 1) := by
  constructor
  · intro h
    simp [handleAddComment, h]
  · rintro uid rfl hne
    have hmain : handleAddComment (some uid) postId body table
        = .ok (table ++ [⟨postId, uid, jsTrim body⟩]) := by
      simp [handleAddComment, hne]
    refine ⟨hmain, ?_⟩
    intro l hl
    rw [hmain] at hl
    cases hl
    simp

/-- C8: Whenever the add-comment path accepts a body and inserts, the stored
`content` is the trimmed body: the only accepted outcome appends the row
built from `jsTrim body`, not from the raw input. -/
theorem addComment_content_trimmed (uid postId body : String)
    (table : List CommentRow) (l : List CommentRow)
    (h : handleAddComment (some uid) postId body table = .ok l) :
    l = table ++ [⟨postId, uid, jsTrim body⟩]
    ∧ (l.getLast?).map CommentRow.content = some (jsTrim body) := by
  by_cases hne : jsTrim body = ""
  · simp [handleAddComment, hne] at h
  · rw [show handleAddComment (some uid) postId body table
        = .ok (table ++ [⟨postId, uid, jsTrim body⟩]) by
      simp [handleAddComment, hne]] at h
    cases h
    refine ⟨rfl, ?_⟩
    simp [List.getLast?_append]

/-- The first character surviving `dropWhile isWs` is not whitespace. -/
theorem head?_dropWhile_ws (l : List Char) :
    ∀ c, (l.dropWhile isWs).head? = some c → isWs c = false := by
  induction l with
  | nil => intro c hc; simp at hc
  | cons a t ih =>
    intro c hc
    rw [List.dropWhile_cons] at hc
    by_cases ha : isWs a = true
    · rw [if_pos ha] at hc
      exact ih c hc
    · rw [if_neg ha] at hc
      simp only [List.head?_cons, Option.some.injEq] at hc
      subst hc
      simpa using ha

/-- A non-empty trim result contains a non-whitespace character. -/
theorem trimChars_has_non_ws (l : List Char) (h : trimChars l ≠ []) :
    (trimChars l).all isWs = false := by
  unfold trimChars at h ⊢
  cases hY : (l.dropWhile isWs).reverse.dropWhile isWs with
  | nil => simp [hY] at h
  | cons y ys =>
    have hy : isWs y = false := by
      refine head?_dropWhile_ws (l.dropWhile isWs).reverse y ?_
      rw [hY, List.head?_cons]
    rw [List.all_eq_false]
    exact ⟨y, by simp, by simp [hy]⟩

/-- A tag accepted by the `addTag` guard is not whitespace-only. -/
theorem jsTrim_not_wsOnly (s : String) (h : jsTrim s ≠ "") :
    wsOnly (jsTrim s) = false := by
  have hne : trimChars s.data ≠ [] := by
    intro hnil
    apply h
    show String.mk (trimChars s.data) = ""
    rw [hnil]
  exact trimChars_has_non_ws s.data hne

/-- One tag-editor interaction preserves the tag invariant. -/
theorem applyTagOp_invariant (tags : List String) (op : TagOp)
    (h : tagInvariant tags) : tagInvariant (applyTagOp tags op) := by
  obtain ⟨hnd, hws⟩ := h
  cases op with
  | add s =>
    simp only [applyTagOp, addTag]
    split
    · rename_i hcond
      obtain ⟨hne, hmem⟩ := hcond
      have hnotmem : jsTrim s ∉ tags := by
        intro hm
        exact hmem (List.elem_iff.mpr hm)
      constructor
      · rw [List.nodup_append]
        refine ⟨hnd, List.nodup_singleton _, ?_⟩
        intro t ht hts
        rw [List.mem_singleton] at hts
        exact hnotmem (hts ▸ ht)
      · intro t ht
        rcases List.mem_append.mp ht with h1 | h1
        · exact hws t h1
        · rw [List.mem_singleton] at h1
          exact h1 ▸ jsTrim_not_wsOnly s hne
    · exact ⟨hnd, hws⟩
  | remove s =>
    simp only [applyTagOp, removeTag]
    exact ⟨hnd.filter _, fun t ht => hws t (List.mem_of_mem_filter ht)⟩

/-- The tag invariant holds along any `foldl` of tag-editor interactions. -/
theorem runTagOps_go_invariant (ops : List TagOp) :
    ∀ tags, tagInvariant tags → tagInvariant (ops.foldl applyTagOp tags) := by
  induction ops with
  | nil => intro tags h; exact h
  | cons op rest ih =>
    intro tags h
    exact ih _ (applyTagOp_invariant tags op h)

/-- C10: After every sequence of addTag and removeTag operations (starting
from the initial empty tag list), the tag list contains no duplicates and no
empty or whitespace-only entries. -/
theorem tags_invariant (ops : List TagOp) : tagInvariant (runTagOps ops) := by
  unfold runTagOps
  exact runTagOps_go_invariant ops [] ⟨List.nodup_nil, by simp⟩

/-- A decimal digit character is a digit. -/
theorem isDigit_ofNat_add (d : Nat) (hd : d < 10) :
    (Char.ofNat (48 + d)).isDigit = true := by
  interval_cases d <;> decide

/-- The digit rendering never produces the empty list. -/
theorem natDigits_ne_nil (n : Nat) : ∀ acc : List Char, natDigits n acc ≠ [] := by
  induction n using Nat.strong_induction_on with
  | _ n ih =>
    intro acc
    rw [natDigits]
    split
    · simp
    · exact ih (n / 10) (Nat.div_lt_self (by omega) (by omega)) _

/-- Every character produced by the digit rendering is a decimal digit. -/
theorem natDigits_all_digits (n : Nat) : ∀ acc : List Char,
    (∀ c ∈ acc, c.isDigit = true) → ∀ c ∈ natDigits n acc, c.isDigit = true := by
  induction n using Nat.strong_induction_on with
  | _ n ih =>
    intro acc hacc c hc
    rw [natDigits] at hc
    split at hc
    · rcases List.mem_cons.mp hc with rfl | hmem
      · exact isDigit_ofNat_add (n % 10) (Nat.mod_lt _ (by omega))
      · exact hacc c hmem
    · refine ih (n / 10) (Nat.div_lt_self (by omega) (by omega)) _ ?_ c hc
      intro x hx
      rcases List.mem_cons.mp hx with rfl | hmem
      · exact isDigit_ofNat_add (n % 10) (Nat.mod_lt _ (by omega))
      · exact hacc x hmem

/-- C5: `createPost` derives the slug from the title by the lower-case /
collapse-runs / trim-hyphens pipeline with the millisecond timestamp
appended; the title "Hello, World!" yields `hello-world-<digits>` (a
non-empty, all-digit suffix). -/
theorem createPost_slug (u : String) (form : PostForm) (st : PostStatus)
    (now : Nat) :
    (buildPostData u form st now).slug = slugify form.title ++ "-" ++ natDecimal now
    ∧ slugify "Hello, World!" = "hello-world"
    ∧ natDecimal now ≠ ""
    ∧ (natDecimal now).data.all Char.isDigit = true := by
  refine ⟨rfl, by decide, ?_, ?_⟩
  · intro heq
    apply natDigits_ne_nil now []
    have hdata : (natDecimal now).data = ("" : String).data := by rw [heq]
    exact hdata
  · rw [List.all_eq_true]
    intro c hc
    exact natDigits_all_digits now [] (by simp) c hc

/-- With pairwise-distinct post ids, selecting by the id of a member post
returns exactly that row. -/
theorem filter_id_eq_singleton (posts : List Post) (p : Post)
    (hnd : (posts.map Post.id).Nodup) (hmem : p ∈ posts) :
    posts.filter (fun x => x.id == p.id) = [p] := by
  induction posts with
  | nil => cases hmem
  | cons a t ih =>
    rw [List.map_cons, List.nodup_cons] at hnd
    obtain ⟨hna, hnt⟩ := hnd
    rcases List.mem_cons.mp hmem with rfl | hmem
    · rw [List.filter_cons_of_pos (by simp)]
      have ht : t.filter (fun x => x.id == p.id) = [] := by
        rw [List.filter_eq_nil_iff]
        intro x hx hbeq
        rw [beq_iff_eq] at hbeq
        exact hna (hbeq ▸ List.mem_map_of_mem Post.id hx)
      rw [ht]
    · have hne : (a.id == p.id) = false := by
        rw [beq_eq_false_iff_ne]
        intro he
        exact hna (he ▸ List.mem_map_of_mem Post.id hmem)
      rw [List.filter_cons_of_neg (by simp [hne])]
      exact ih hnt hmem

/-- C3: On an identifier with no corresponding post, loadPost fails with
NotFound; on the identifier of a published post (ids being unique), it
returns a composite view whose status is "published". -/
theorem loadPost_spec (posts : List Post) (cats : List CategoryRow)
    (profiles : List Profile) (pid : String) :
    ((∀ p ∈ posts, p.id ≠ pid) →
      loadPost posts cats profiles pid = .error .notFound)
    ∧ (∀ p ∈ posts, p.id = pid → p.status = "published" →
        (posts.map Post.id).Nodup →
        ∃ v, loadPost posts cats profiles pid = .ok v
          ∧ v.post.status = "published") := by
  constructor
  · intro h
    have hfil : posts.filter (fun p => p.id == pid) = [] := by
      rw [List.filter_eq_nil_iff]
      intro x hx hbeq
      rw [beq_iff_eq] at hbeq
      exact h x hx hbeq
    unfold loadPost
    rw [hfil]
    rfl
  · intro p hmem hpid hstat hnd
    have hfil : posts.filter (fun x => x.id == pid) = [p] := by
      rw [← hpid]
      exact filter_id_eq_singleton posts p hnd hmem
    refine ⟨{ post := p
              categories := p.category_id.bind fun cid =>
                (cats.find? (fun c => c.id == cid)).map fun c => ⟨c.name, c.slug⟩
              profiles := profiles.find? (fun pr => pr.user_id == p.user_id) },
            ?_, hstat⟩
    unfold loadPost
    rw [hfil]
    rfl

/-- C6: An author with no matching profile row is rendered exactly as
"Anonymous", and a profile-lookup miss (or even a failed profile query)
never makes the comment fetch or loadPost fail. -/
theorem profile_miss_anonymous :
    (∀ (commentsTable : List Comment) (profilesTable : List Profile)
        (profilesOk : Bool) (pid : String),
      ∃ l, fetchComments commentsTable profilesTable true profilesOk pid = .ok l
        ∧ ∀ e ∈ l, (∀ pr ∈ profilesTable, pr.user_id ≠ e.comment.user_id) →
            displayNameOr e.profiles = "Anonymous")
    ∧ (∀ (posts : List Post) (cats : List CategoryRow) (profiles : List Profile)
        (pid : String) (p : Post),
      posts.filter (fun x => x.id == pid) = [p] →
      ∃ v, loadPost posts cats profiles pid = .ok v
        ∧ ((∀ pr ∈ profiles, pr.user_id ≠ p.user_id) →
            displayNameOr v.profiles = "Anonymous")) := by
  constructor
  · intro commentsTable profilesTable profilesOk pid
    unfold fetchComments
    rw [if_neg (by simp)]
    by_cases hlen : (commentUserIds commentsTable pid).length = 0
    · rw [if_pos hlen]
      exact ⟨[], rfl, by simp⟩
    · rw [if_neg hlen]
      refine ⟨_, rfl, ?_⟩
      intro e he hnone
      simp only [enrichComments, List.mem_map] at he
      obtain ⟨c, hc, rfl⟩ := he
      cases profilesOk with
      | false => simp [displayNameOr]
      | true =>
        have hfind : (profilesTable.filter
              (fun pr => decide (pr.user_id ∈ commentUserIds commentsTable pid))).find?
            (fun pr => pr.user_id == c.user_id) = none := by
          rw [List.find?_eq_none]
          intro x hx
          have hxT : x ∈ profilesTable := (List.mem_filter.mp hx).1
          simp only [beq_iff_eq]
          exact hnone x hxT
        simp [displayNameOr, hfind]
  · intro posts cats profiles pid p hfil
    refine ⟨{ post := p
              categories := p.category_id.bind fun cid =>
                (cats.find? (fun c => c.id == cid)).map fun c => ⟨c.name, c.slug⟩
              profiles := profiles.find? (fun pr => pr.user_id == p.user_id) },
            ?_, ?_⟩
    · unfold loadPost
      rw [hfil]
      rfl
    · intro hnone
      have hfind : profiles.find? (fun pr => pr.user_id == p.user_id) = none := by
        rw [List.find?_eq_none]
        intro x hx
        simp only [beq_iff_eq]
        exact hnone x hx
      simp only [hfind]
      rfl

/-- The three chained restrictions of the posts query equal one combined
filter over the table. -/
theorem applyFilters_eq_filter (posts : List Post) (q c : String) :
    applyCategoryFilter c (applySearchFilter q
        (posts.filter (fun p => p.status == "published")))
      = posts.filter (listFilterPred q c) := by
  by_cases hq : q = "" <;> by_cases hc : c = ""
  · subst hq; subst hc
    simp only [applySearchFilter, applyCategoryFilter, reduceIte]
    exact List.filter_congr fun x _ => by simp [listFilterPred]
  · subst hq
    have hcb : (c == "") = false := by simpa using hc
    simp only [applySearchFilter, applyCategoryFilter, reduceIte, if_neg hc,
      List.filter_filter]
    apply List.filter_congr
    intro x _
    simp [listFilterPred, hcb, Bool.and_comm]
  · subst hc
    have hqb : (q == "") = false := by simpa using hq
    simp only [applySearchFilter, applyCategoryFilter, if_neg hq, reduceIte,
      List.filter_filter]
    apply List.filter_congr
    intro x _
    simp [listFilterPred, hqb, Bool.and_comm]
  · have hqb : (q == "") = false := by simpa using hq
    have hcb : (c == "") = false := by simpa using hc
    simp only [applySearchFilter, applyCategoryFilter, if_neg hq, if_neg hc,
      List.filter_filter]
    apply List.filter_congr
    intro x _
    simp [listFilterPred, hqb, hcb, Bool.and_comm, Bool.and_assoc,
      Bool.and_left_comm]

/-- C4: The list view returns only published posts, ordered by publish
timestamp descending; its contents are exactly the rows passing the
status/search/category restrictions, and with a non-empty search text a post
appears iff it is a published post whose title or body contains the text
(case-insensitively) and it passes the category restriction. -/
theorem listPublishedPosts_spec (posts : List Post) (q c : String) :
    (∀ p ∈ listPublishedPosts posts q c, p.status = "published")
    ∧ List.Sorted publishedAtGe (listPublishedPosts posts q c)
    ∧ List.Perm (listPublishedPosts posts q c) (posts.filter (listFilterPred q c))
    ∧ (q ≠ "" → ∀ p, p ∈ listPublishedPosts posts q c ↔
        (p ∈ posts ∧ p.status = "published"
          ∧ (ilikeContains p.title q || ilikeContains p.content q) = true
          ∧ (c = "" ∨ p.category_id = some c))) := by
  have hperm : List.Perm (listPublishedPosts posts q c)
      (posts.filter (listFilterPred q c)) := by
    unfold listPublishedPosts
    rw [applyFilters_eq_filter]
    exact List.perm_insertionSort publishedAtGe _
  have hmem : ∀ p, p ∈ listPublishedPosts posts q c ↔
      (p ∈ posts ∧ listFilterPred q c p = true) := by
    intro p
    rw [hperm.mem_iff, List.mem_filter]
  refine ⟨?_, ?_, hperm, ?_⟩
  · intro p hp
    have hpred := ((hmem p).mp hp).2
    unfold listFilterPred at hpred
    simp only [Bool.and_eq_true, beq_iff_eq] at hpred
    exact hpred.1.1
  · exact List.sorted_insertionSort publishedAtGe _
  · intro hq p
    rw [hmem p]
    unfold listFilterPred
    simp [hq, Bool.and_eq_true, Bool.or_eq_true, beq_iff_eq, and_assoc]

/-- Splitting a filtered count by an additional Boolean condition. -/
theorem length_filter_split {α : Type} (l : List α) (q r : α → Bool) :
    (l.filter q).length
      = (l.filter fun x => q x && r x).length
        + (l.filter fun x => q x && !r x).length := by
  induction l with
  | nil => simp
  | cons a t ih =>
    by_cases hq : q a = true <;> by_cases hr : r a = true <;>
      simp [List.filter_cons, hq, hr, ih] <;> omega

/-- C1: toggleLike deletes the (postId, userId) like row when present and
inserts one otherwise; under the store's at-most-one-like-per-pair
invariant, toggling twice restores both the like-state and the like-count. -/
theorem toggleLike_twice (likes : List Like) (p u : String)
    (h : (likes.filter (likeMatches p u)).length ≤ 1) :
    (isLiked likes p u = true →
      toggleLike likes p u = likes.filter (fun l => !(likeMatches p u l)))
    ∧ (isLiked likes p u = false → toggleLike likes p u = likes ++ [⟨p, u⟩])
    ∧ isLiked (toggleLike (toggleLike likes p u) p u) p u = isLiked likes p u
    ∧ likesCount (toggleLike (toggleLike likes p u) p u) p
        = likesCount likes p := by
  have hself : likeMatches p u (Like.mk p u) = true := by simp [likeMatches]
  cases hL : isLiked likes p u with
  | false =>
    have hnomem : ∀ l ∈ likes, likeMatches p u l = false := by
      intro l hl
      unfold isLiked at hL
      have := List.any_eq_false.mp hL l hl
      exact Bool.eq_false_iff.mpr this
    have h1 : toggleLike likes p u = likes ++ [Like.mk p u] := by
      simp [toggleLike, hL]
    have h2 : isLiked (likes ++ [Like.mk p u]) p u = true := by
      unfold isLiked
      rw [List.any_append]
      simp [hself]
    have h3 : toggleLike (likes ++ [Like.mk p u]) p u
        = List.filter (fun l => !(likeMatches p u l)) (likes ++ [Like.mk p u]) := by
      simp [toggleLike, h2]
    have h4 : List.filter (fun l => !(likeMatches p u l)) (likes ++ [Like.mk p u])
        = likes := by
      rw [List.filter_append]
      have hA : likes.filter (fun l => !(likeMatches p u l)) = likes :=
        List.filter_eq_self.mpr (fun a ha => by simp [hnomem a ha])
      have hB : List.filter (fun l => !(likeMatches p u l)) [Like.mk p u]
          = [] := by
        simp [hself]
      rw [hA, hB, List.append_nil]
    refine ⟨?_, fun _ => h1, ?_, ?_⟩
    · intro hc
      exact (Bool.false_ne_true hc).elim
    · rw [h1, h3, h4]
      exact hL
    · rw [h1, h3, h4]
  | true =>
    have hmem : ∃ x, x ∈ likes ∧ likeMatches p u x = true := by
      unfold isLiked at hL
      simpa using List.any_eq_true.mp hL
    have h1 : toggleLike likes p u
        = likes.filter (fun l => !(likeMatches p u l)) := by
      simp [toggleLike, hL]
    have h2 : isLiked (likes.filter (fun l => !(likeMatches p u l))) p u
        = false := by
      unfold isLiked
      rw [List.any_eq_false]
      intro x hx
      have hxm := (List.mem_filter.mp hx).2
      simp only [Bool.not_eq_eq_eq_not, Bool.not_true] at hxm
      simp [hxm]
    have h3 : toggleLike (likes.filter (fun l => !(likeMatches p u l))) p u
        = likes.filter (fun l => !(likeMatches p u l)) ++ [Like.mk p u] := by
      simp [toggleLike, h2]
    have h4 : isLiked (likes.filter (fun l => !(likeMatches p u l))
        ++ [Like.mk p u]) p u = true := by
      unfold isLiked
      rw [List.any_append]
      simp [hself]
    have hcnt1 : (likes.filter (likeMatches p u)).length = 1 := by
      obtain ⟨x, hxm, hxt⟩ := hmem
      have hpos : 0 < (likes.filter (likeMatches p u)).length := by
        have hmemf : x ∈ likes.filter (likeMatches p u) :=
          List.mem_filter.mpr ⟨hxm, hxt⟩
        exact List.length_pos.mpr (List.ne_nil_of_mem hmemf)
      omega
    have hconj : likes.filter (fun x => (x.post_id == p) && likeMatches p u x)
        = likes.filter (likeMatches p u) := by
      apply List.filter_congr
      intro x _
      cases hm : likeMatches p u x with
      | true =>
        have hpost : (x.post_id == p) = true := by
          unfold likeMatches at hm
          rw [Bool.and_eq_true] at hm
          exact hm.1
        simp [hpost]
      | false => simp
    have hfinal : likesCount (likes.filter (fun l => !(likeMatches p u l))
        ++ [Like.mk p u]) p = likesCount likes p := by
      unfold likesCount
      rw [List.filter_append, List.length_append, List.filter_filter]
      have hx : (List.filter (fun l => l.post_id == p) [Like.mk p u]).length
          = 1 := by simp
      rw [hx, length_filter_split likes (fun l => l.post_id == p)
        (likeMatches p u), hconj, hcnt1]
      have hcomm : likes.filter (fun a => (a.post_id == p) && !likeMatches p u a)
          = likes.filter (fun a => !likeMatches p u a && (a.post_id == p)) := by
        apply List.filter_congr
        intro x _
        rw [Bool.and_comm]
      rw [hcomm]
      omega
    refine ⟨fun _ => h1, ?_, ?_, ?_⟩
    · intro hc
      exact (Bool.false_ne_true hc.symm).elim
    · rw [h1, h3]
      exact h4
    · rw [h1, h3]
      exact hfinal


/-- Witness for the double-toggle theorem at a concrete one-like store. -/
theorem toggleLike_twice_witness :
    (([Like.mk "p1" "u1"]).filter (likeMatches "p1" "u1")).length ≤ 1
    ∧ isLiked (toggleLike (toggleLike [Like.mk "p1" "u1"] "p1" "u1") "p1" "u1")
        "p1" "u1" = isLiked [Like.mk "p1" "u1"] "p1" "u1"
    ∧ likesCount (toggleLike (toggleLike [Like.mk "p1" "u1"] "p1" "u1") "p1" "u1")
        "p1" = likesCount [Like.mk "p1" "u1"] "p1" :=
  ⟨by decide,
    (toggleLike_twice [Like.mk "p1" "u1"] "p1" "u1" (by decide)).2.2.1,
    (toggleLike_twice [Like.mk "p1" "u1"] "p1" "u1" (by decide)).2.2.2⟩

/-- Witness for the trimmed-content theorem at a concrete accepted body. -/
theorem addComment_content_trimmed_witness :
    ([CommentRow.mk "p1" "u1" "hi"] : List CommentRow)
        = [] ++ [CommentRow.mk "p1" "u1" (jsTrim "  hi  ")]
    ∧ (([CommentRow.mk "p1" "u1" "hi"] : List CommentRow).getLast?).map
        CommentRow.content = some (jsTrim "  hi  ") :=
  addComment_content_trimmed "u1" "p1" "  hi  " []
    [CommentRow.mk "p1" "u1" "hi"] (by rfl)

end BlogForge
